import Mathlib

/-!
Verification development for the misty-vm runtime (crate `misty-vm`).

The Rust sources are shallowly embedded: every definition below is a direct
translation of a function of the crate, with explicit state passing in place of
interior mutability.  Reference counts of `Arc`-managed values are tracked
explicitly, HashMap / HashSet fields become association lists, and a Rust
panic becomes an explicit error value.  File and line references point into
the crate sources (`src/misty-vm/src/...`).
-/

set_option autoImplicit false

namespace MistyVM

/-! ### Association-list helpers (model of `std::collections::HashMap`) -/

/-- Lookup in an association list keyed by `Nat` (`HashMap::get`). -/
def alookup {α : Type} : List (Nat × α) → Nat → Option α
  | [], _ => none
  | (k', v') :: t, k => if k' = k then some v' else alookup t k

/-- Insert-or-replace in an association list (`HashMap::insert`). -/
def aset {α : Type} : List (Nat × α) → Nat → α → List (Nat × α)
  | [], k, v => [(k, v)]
  | (k', v') :: t, k, v => if k' = k then (k, v) :: t else (k', v') :: aset t k v

/-- Remove a key from an association list (`HashMap::remove`). -/
def aerase {α : Type} : List (Nat × α) → Nat → List (Nat × α)
  | [], _ => []
  | (k', v') :: t, k => if k' = k then t else (k', v') :: aerase t k

/-- Membership test on a list of `Nat` keys (`HashSet::contains`). -/
def memNat : Nat → List Nat → Bool
  | _, [] => false
  | k, x :: t => if x = k then true else memNat k t

/-- Idempotent insertion into a list used as a set (`HashSet::insert`). -/
def insertSet (k : Nat) (l : List Nat) : List Nat :=
  if memNat k l then l else l ++ [k]

/-- Remove a `Nat` key from a list used as a set (`HashSet::remove` /
`HashMap::remove` on the weak-observer table, which stores no payload we
need). -/
def eraseNat (k : Nat) : List Nat → List Nat
  | [] => []
  | x :: t => if x = k then t else x :: eraseNat k t

/-! ### Resource Ledger (`src/misty-vm/src/resources.rs`)

`MistyResourceHandle` is an `Arc<MistyResourceHandleInner>`; we model a handle
by its resource id and track the `Arc` strong count explicitly:
`ext_strong id` counts the caller-held (external) handles, and a pending
`Insert` entry contributes one further strong reference, because
`ToFlushResourceAction::Insert(MistyResourceHandle)` stores a clone of the
handle (resources.rs line 161).  `MistyResourceHandleInner::drop` runs exactly
when the total strong count reaches zero. -/

/-- `ToFlushResourceAction` (resources.rs lines 51-54).  The `Insert` variant
stores the handle; here we record the handle's buffer, while the strong
reference the stored handle constitutes is accounted for in `strongCount`. -/
inductive ToFlushResourceAction where
  | insertAct (buf : List Nat)
  | removeAct
  deriving DecidableEq

/-- `ResourceUpdateAction` (resources.rs lines 10-13). -/
inductive ResourceUpdateAction where
  | Insert (id : Nat) (buf : List Nat)
  | Remove (id : Nat)
  deriving DecidableEq

/-- `MistyResourceManagerStore` (resources.rs lines 66-69) together with the
explicit reference-count bookkeeping described above.  `next_id` models the
global `ALLOCATED: AtomicU64` counter of `MistyResourceId::alloc`
(resources.rs lines 33-40), which starts at 1. -/
structure ResourceStore where
  pending_actions : List (Nat × ToFlushResourceAction)
  weak_map : List Nat
  ext_strong : List (Nat × Nat)
  next_id : Nat
  deriving DecidableEq

namespace ResourceStore

/-- Does the pending-action table hold an `Insert` (and hence a strong
handle) for `id`? -/
def pendingHolds (s : ResourceStore) (id : Nat) : Bool :=
  match alookup s.pending_actions id with
  | some (.insertAct _) => true
  | _ => false

/-- Total `Arc` strong count of the resource `id`: caller-held handles plus
the handle stored inside a pending `Insert` action. -/
def strongCount (s : ResourceStore) (id : Nat) : Nat :=
  (match alookup s.ext_strong id with | some n => n | none => 0)
    + (if s.pendingHolds id then 1 else 0)

end ResourceStore

/-- `MistyResourceManager::new` (resources.rs lines 129-136). -/
def MistyResourceManager.new : ResourceStore :=
  { pending_actions := [], weak_map := [], ext_strong := [], next_id := 1 }

/-- `impl Drop for MistyResourceHandleInner` (resources.rs lines 103-126):
runs when the last strong reference is gone.  If the pending table still has
an entry for the id it is removed (the intended insert/drop cancellation),
otherwise a pending `Remove` is recorded; the weak observer entry is removed.
The `store_ref.upgrade()` of the source is assumed to succeed: all modelled
scenarios keep the manager alive. -/
def MistyResourceHandleInner.drop (s : ResourceStore) (id : Nat) : ResourceStore :=
  let s :=
    if (alookup s.pending_actions id).isSome then
      { s with pending_actions := aerase s.pending_actions id }
    else
      { s with pending_actions := aset s.pending_actions id .removeAct }
  { s with weak_map := eraseNat id s.weak_map }

/-- A caller drops one of its (external) strong handles for `id`.  The `Arc`
strong count decrements; `MistyResourceHandleInner::drop` runs if and only if
the count reaches zero — which requires that no pending `Insert` still stores
a handle for `id`. -/
def MistyResourceHandle.drop (s : ResourceStore) (id : Nat) : ResourceStore :=
  match alookup s.ext_strong id with
  | none => s
  | some 0 => s
  | some (n + 1) =>
      let s' := { s with ext_strong := aset s.ext_strong id n }
      if n = 0 ∧ ¬ s'.pendingHolds id then MistyResourceHandleInner.drop s' id else s'

/-- `MistyResourceManager::insert` (resources.rs lines 147-169): allocate a
fresh id, record a pending `Insert` holding a clone of the handle, register
the weak observer, and return the handle (one external strong reference). -/
def MistyResourceManager.insert (s : ResourceStore) (buf : List Nat) :
    Nat × ResourceStore :=
  let id := s.next_id
  (id,
   { pending_actions := aset s.pending_actions id (.insertAct buf),
     weak_map := insertSet id s.weak_map,
     ext_strong := aset s.ext_strong id 1,
     next_id := s.next_id + 1 })

/-- `MistyResourceManager::get_handle` (resources.rs lines 138-145): look up
the weak observer and try to upgrade it.  The upgrade succeeds exactly when
the strong count is still positive; on success the caller receives a new
external strong handle. -/
def MistyResourceManager.get_handle (s : ResourceStore) (id : Nat) :
    Option Nat × ResourceStore :=
  if memNat id s.weak_map then
    if s.strongCount id > 0 then
      (some id,
       { s with
           ext_strong := aset s.ext_strong id
             ((match alookup s.ext_strong id with | some n => n | none => 0) + 1) })
    else (none, s)
  else (none, s)

/-- `MistyResourceManager::take_all_actions` (resources.rs lines 171-191):
swap the pending table for an empty one, then turn each consumed entry into a
`ResourceUpdateAction`.  Each `Insert` entry's stored handle is dropped at the
end of its loop iteration; if the caller holds no external handle at that
point the strong count reaches zero and `MistyResourceHandleInner::drop` runs
against the fresh pending table. -/
def MistyResourceManager.take_all_actions (s : ResourceStore) :
    List ResourceUpdateAction × ResourceStore :=
  let taken := s.pending_actions
  let s0 := { s with pending_actions := [] }
  taken.foldl
    (fun (acc : List ResourceUpdateAction × ResourceStore) p =>
      match p.2 with
      | .insertAct buf =>
          let acc1 := (acc.1 ++ [ResourceUpdateAction.Insert p.1 buf], acc.2)
          if (match alookup acc1.2.ext_strong p.1 with | some n => n | none => 0) = 0 then
            (acc1.1, MistyResourceHandleInner.drop acc1.2 p.1)
          else acc1
      | .removeAct => (acc.1 ++ [ResourceUpdateAction.Remove p.1], acc.2))
    ([], s0)

/-! Concrete resource scenario for claims C2 and C3: fresh manager, one
`insert` of the buffer `[1, 2, 3]` (allocated id 1), then the caller drops
its only handle without an intervening harvest. -/

/-- Store after `insert([1,2,3])`; the returned handle has id 1. -/
def resAfterInsert : ResourceStore :=
  (MistyResourceManager.insert MistyResourceManager.new [1, 2, 3]).2

/-- Store after the caller drops its only handle (no harvest yet). -/
def resAfterDrop : ResourceStore :=
  MistyResourceHandle.drop resAfterInsert 1

/-- First harvest after the drop. -/
def resHarvest1 : List ResourceUpdateAction × ResourceStore :=
  MistyResourceManager.take_all_actions resAfterDrop

/-- Second harvest. -/
def resHarvest2 : List ResourceUpdateAction × ResourceStore :=
  MistyResourceManager.take_all_actions resHarvest1.2

/-! ### State Container (`src/misty-vm/src/states.rs`)

A registered state type `T: MistyStateTrait` is identified by its `TypeId`
(modelled as a `Nat` tag) and its `type_name` (a `String`, used in the panic
message of `update`).  All state values are modelled as `Int`; the states
table `vals` maps each registered tag to its value.  The per-thread
`ThreadLocal` cells (`updated_state`, `depth`) are modelled for the single
calling thread, whose `ThreadId` display string is passed explicitly. -/

/-- A state type: its `TypeId` tag and its `std::any::type_name`. -/
structure StateTy where
  sid : Nat
  name : String
  deriving DecidableEq

/-- `MistyStateManager` (states.rs lines 142-147): the states table plus the
calling thread's touched-set and reentrancy depth. -/
structure MistyStateManager where
  vals : List (Nat × Int)
  depth : Nat
  touched : List Nat

namespace MistyStateManager

/-- `enter_mut_span` (states.rs lines 215-218). -/
def enter_mut_span (m : MistyStateManager) : MistyStateManager :=
  { m with depth := m.depth + 1 }

/-- `leave_mut_span` (states.rs lines 219-231): panics when called at depth
0 (the formatted depth in the message is necessarily 0), otherwise
decrements and reports whether depth returned to zero. -/
def leave_mut_span (m : MistyStateManager) : MistyStateManager × Except String Bool :=
  if m.depth = 0 then
    (m, .error "[Internal Error] MistyClientThisNotifyState depth is 0")
  else
    ({ m with depth := m.depth - 1 }, .ok (m.depth - 1 == 0))

/-- `clear_updated_states` (states.rs lines 232-234). -/
def clear_updated_states (m : MistyStateManager) : MistyStateManager :=
  { m with touched := [] }

/-- `reset` (states.rs lines 235-238): clears the touched set and zeroes the
depth; used only by the panic-cleanup guard. -/
def reset (m : MistyStateManager) : MistyStateManager :=
  { m with touched := [], depth := 0 }

/-- `can_update` (states.rs lines 239-241). -/
def can_update (m : MistyStateManager) : Bool :=
  m.depth > 0

/-- `add_update_state` (states.rs lines 243-248). -/
def add_update_state (m : MistyStateManager) (T : StateTy) : MistyStateManager :=
  { m with touched := insertSet T.sid m.touched }

/-- `contains_updated_state` (states.rs lines 250-255). -/
def contains_updated_state (m : MistyStateManager) (ids : List Nat) : Bool :=
  ids.any (fun i => memNat i m.touched)

end MistyStateManager

/-- `MistyStateTrait::update` (states.rs lines 39-59): check `can_update`
(panic naming the thread and the state type when the span depth is 0), record
the tag into the touched set, then look the state entry up (`States::get`
unwraps, states.rs line 197) and apply `func`, returning its result.  `f`
gives the new state value and the returned `R` (both `Int`). -/
def MistyStateTrait.update (th : String) (T : StateTy) (f : Int → Int × Int)
    (m : MistyStateManager) : MistyStateManager × Except String Int :=
  if ¬ m.can_update then
    (m, .error ("[" ++ th ++ "] cannot update state " ++ T.name ++ " in this stage"))
  else
    let m1 := m.add_update_state T
    match alookup m1.vals T.sid with
    | none => (m1, .error "called Option::unwrap() on a None value")
    | some v =>
        ({ m1 with vals := aset m1.vals T.sid (f v).1 }, .ok (f v).2)

/-! ### View Projector (`src/misty-vm/src/views.rs`)

A registered view model (binding) declares its dependency tags
(`RefMistyStates::state_ids`) and an update function.  `extract_refs` hands
the binding shared reads of exactly the declared state types, in declaration
order; we model that snapshot as `deps.map (alookup vals)`. -/

/-- One erased view model held by `MistyViewModelManager` (views.rs lines
36-46): dependency tags plus the projection mutating the shared output. -/
structure ViewBinding (R : Type) where
  deps : List Nat
  update : List (Option Int) → R → R

/-- `MistyViewModelManager::build_view` (views.rs lines 129-140): start from
`R::default()` and, over the bindings in registration order, invoke a binding
on the shared output whenever `should_update` — that is,
`contains_updated_state` on its declared tags — holds. -/
def MistyViewModelManager.build_view {R : Type} [Inhabited R]
    (models : List (ViewBinding R)) (m : MistyStateManager) : R :=
  models.foldl
    (fun s md =>
      if m.contains_updated_state md.deps then
        md.update (md.deps.map (fun i => alookup m.vals i)) s
      else s)
    default

/-! ### Client core and Controller Invoker
(`src/misty-vm/src/client/core.rs`, `src/misty-vm/src/controllers.rs`)

`MistyClientInner` owns the managers; we keep the fields the embedded
functions touch.  A controller body is arbitrary client code; it is embedded
as a straight-line program of calls into the embedded API (state updates and
resource inserts) followed by its return value — or by a panic, which unwinds
out of the body. -/

/-- The fields of `MistyClientInner` (client/core.rs lines 36-47) used by the
embedded functions.  `view_models` is the registered `MistyViewModelManager`
behind the `view_manager: Box<dyn ViewNotifier>` field. -/
structure Client (R : Type) where
  state_manager : MistyStateManager
  resource_manager : ResourceStore
  view_models : List (ViewBinding R)
  destroyed : Bool

/-- One statement of a controller body: a `MistyStateTrait::update` call
(whose `R`-typed result the body discards) or a
`MistyResourceManager::insert` whose returned handle the body keeps alive
for the rest of the invocation. -/
inductive CtrlStep where
  | updateState (T : StateTy) (f : Int → Int)
  | insertRes (buf : List Nat)

/-- Run one statement.  A `some msg` second component is a panic unwinding
out of the controller body. -/
def runStep {R : Type} (th : String) (c : Client R) : CtrlStep → Client R × Option String
  | .updateState T f =>
      let r := MistyStateTrait.update th T (fun v => (f v, v)) c.state_manager
      match r.2 with
      | .ok _ => ({ c with state_manager := r.1 }, none)
      | .error m => ({ c with state_manager := r.1 }, some m)
  | .insertRes buf =>
      let r := MistyResourceManager.insert c.resource_manager buf
      ({ c with resource_manager := r.2 }, none)

/-- Run the statements of a controller body in order; a panic stops the body
and unwinds, leaving all mutations already applied in place. -/
def runSteps {R : Type} (th : String) : Client R → List CtrlStep → Client R × Option String
  | c, [] => (c, none)
  | c, s :: rest =>
      let r := runStep th c s
      match r.2 with
      | none => runSteps th r.1 rest
      | some m => (r.1, some m)

/-- How a controller body ends: `Ok(())`, `Err(e)`, or a deliberate panic. -/
inductive Ending (E : Type) where
  | retOk
  | retErr (e : E)
  | panics (msg : String)

/-- A controller: its straight-line body and how it ends. -/
structure CtrlProg (E : Type) where
  steps : List CtrlStep
  ending : Ending E

/-- Outcome of `controller.call(ctx, arg)`: a normal `Result<(), E>` or an
abnormal unwind. -/
inductive BodyResult (E : Type) where
  | normal (r : Except E Unit)
  | panicked (msg : String)

/-- Invoke the controller body (controllers.rs line 58): run the statements,
then produce the declared ending, unless a statement already panicked. -/
def callBody {R E : Type} (th : String) (p : CtrlProg E) (c : Client R) :
    Client R × BodyResult E :=
  let r := runSteps th c p.steps
  match r.2 with
  | some m => (r.1, .panicked m)
  | none =>
      match p.ending with
      | .retOk => (r.1, .normal (.ok ()))
      | .retErr e => (r.1, .normal (.error e))
      | .panics m => (r.1, .panicked m)

/-- `ControllerRet` (controllers.rs lines 36-39). -/
structure ControllerRet (R : Type) where
  changed_view : Option R
  changed_resources : List ResourceUpdateAction

/-- What `call_controller` hands back to its caller: the Rust
`Result<ControllerRet<R>, E>`, or a panic unwinding further. -/
inductive CallResult (R E : Type) where
  | ret (r : Except E (ControllerRet R))
  | panicked (msg : String)

/-- `call_controller` (controllers.rs lines 41-79).  A cleanup guard is
installed armed; the mutation span is entered; the controller body runs; on a
normal return the span is left and, if outermost, the ledger is harvested,
the view rebuilt and the touched set cleared, after which the guard is
disarmed and the body's error (if any) is propagated — discarding the
locals `changed_view` / `changed_actions`.  On an abnormal unwind the guard
is dropped still armed and calls `MistyStateManager.reset`
(states.rs lines 258-279). -/
def call_controller {R E : Type} [Inhabited R] (th : String) (p : CtrlProg E)
    (c : Client R) : Client R × CallResult R E :=
  let body := callBody th p { c with state_manager := c.state_manager.enter_mut_span }
  match body.2 with
  | .panicked m =>
      ({ body.1 with state_manager := body.1.state_manager.reset }, .panicked m)
  | .normal res =>
      let lv := body.1.state_manager.leave_mut_span
      match lv.2 with
      | .error m =>
          ({ body.1 with state_manager := lv.1.reset }, .panicked m)
      | .ok can_notify =>
          let c3 : Client R := { body.1 with state_manager := lv.1 }
          let committed :=
            if can_notify then
              let ta := MistyResourceManager.take_all_actions c3.resource_manager
              let v := MistyViewModelManager.build_view c3.view_models c3.state_manager
              ({ c3 with
                   resource_manager := ta.2,
                   state_manager := c3.state_manager.clear_updated_states },
               some v, ta.1)
            else (c3, none, ([] : List ResourceUpdateAction))
          match res with
          | .error e => (committed.1, .ret (.error e))
          | .ok _ => (committed.1, .ret (.ok ⟨committed.2.1, committed.2.2⟩))

/-- `SingletonMistyClientPod::call_controller` (client/pod.rs lines
101-121): panic when no client is in the pod, otherwise clone the inner and
run `call_controller` on it.  The `destroyed` flag is not consulted on this
path. -/
def SingletonMistyClientPod.call_controller {R E : Type} [Inhabited R]
    (pod : Option (Client R)) (ctrlName : String) (th : String) (p : CtrlProg E) :
    Except String (Client R × CallResult R E) :=
  match pod with
  | none => .error ("client not in singleton pod. controller is " ++ ctrlName)
  | some c => .ok (MistyVM.call_controller th p c)

/-! ### Scheduler and Signal Emitter (`src/misty-vm/src/schedule.rs`,
`src/misty-vm/src/signals.rs`)

A scheduled handler is `FnOnce(MistyClientHandle) -> Result<(), E>`; its
business effect on the client is modelled over an abstract app state `σ`, so
a handler is `σ → σ × Except String Unit` (errors rendered by `Display` as
`String`).  `ScheduledTask::new` wraps it into the box stored in the queue,
which also appends to the tracing log when the handler errs.  The parts of
`MistyClientInner` these functions touch are collected in
`ScheduleClient`. -/

/-- The client state seen by the scheduler: the destroyed flag, the queued
(wrapped) tasks of `ScheduleManager` (schedule.rs lines 12-14), the number of
`MistySignal::Schedule` signals emitted so far by `SignalEmitter::emit`
(signals.rs lines 25-28), the abstract app state the handlers mutate, and the
tracing log. -/
structure ScheduleClient (σ : Type) where
  destroyed : Bool
  tasks : List ((σ × List String) → (σ × List String))
  signals : Nat
  app : σ
  log : List String

/-- `ScheduledTask::new` (schedule.rs lines 20-35): wrap a handler; when the
handler returns `Err(err)` the wrapper logs
`"schedule fail, error: {err}"` and swallows the error. -/
def ScheduledTask.new {σ : Type} (h : σ → σ × Except String Unit) :
    (σ × List String) → (σ × List String) :=
  fun sl =>
    let r := h sl.1
    match r.2 with
    | .ok _ => (r.1, sl.2)
    | .error err => (r.1, sl.2 ++ ["schedule fail, error: " ++ err])

/-- `ScheduleManager::enqueue` (schedule.rs lines 49-61): push the wrapped
task, then `SignalEmitter::emit(MistySignal::Schedule)`. -/
def ScheduleManager.enqueue {σ : Type} (c : ScheduleClient σ)
    (h : σ → σ × Except String Unit) : ScheduleClient σ :=
  { c with tasks := c.tasks ++ [ScheduledTask.new h], signals := c.signals + 1 }

/-- `MistyAsyncTaskContext::schedule` (async_task.rs lines 248-267): upgrade
the weak client reference (`none` models a dropped client) — silently return
if it is gone; silently return (with a warning log we do not track) if the
client is destroyed; otherwise enqueue and signal. -/
def MistyAsyncTaskContext.schedule {σ : Type} (client : Option (ScheduleClient σ))
    (h : σ → σ × Except String Unit) : Option (ScheduleClient σ) :=
  match client with
  | none => none
  | some inner =>
      if inner.destroyed then some inner
      else some (ScheduleManager.enqueue inner h)

/-- `ScheduleManager::take_all_tasks` (schedule.rs lines 63-70): swap the
queue for an empty one and return the previous contents in enqueue order. -/
def ScheduleManager.take_all_tasks {σ : Type} (c : ScheduleClient σ) :
    List ((σ × List String) → (σ × List String)) × ScheduleClient σ :=
  (c.tasks, { c with tasks := [] })

/-- `controller_flush_scheduled_tasks` (schedule.rs lines 73-85): take all
queued tasks and run each in order; always returns `Ok(())` — its error type
`Infallible` is the uninhabited `Empty`. -/
def controller_flush_scheduled_tasks {σ : Type} (c : ScheduleClient σ) :
    ScheduleClient σ × Except Empty Unit :=
  let taken := ScheduleManager.take_all_tasks c
  let run := taken.1.foldl (fun sl t => t sl) (taken.2.app, taken.2.log)
  ({ taken.2 with app := run.1, log := run.2 }, .ok ())

/-- Specification helper for C10: the app state after every handler of the
batch has run in enqueue order, errors notwithstanding. -/
def runAllHandlers {σ : Type} : List (σ → σ × Except String Unit) → σ → σ
  | [], s => s
  | h :: t, s => runAllHandlers t (h s).1

/-- Specification helper for C10: the log lines the wrapped batch appends —
one `"schedule fail, error: ..."` line per erring handler, in enqueue
order. -/
def flushErrors {σ : Type} : List (σ → σ × Except String Unit) → σ → List String
  | [], _ => []
  | h :: t, s =>
      match (h s).2 with
      | .ok _ => flushErrors t (h s).1
      | .error e => ("schedule fail, error: " ++ e) :: flushErrors t (h s).1

/-! ### Async Task Orchestrator (`src/misty-vm/src/async_task.rs`)

Pools are keyed by the kind tag (the `TypeId` of the `MistyAsyncTaskTrait`
implementor, modelled as a `Nat`).  The external
`IAsyncTaskRuntimeAdapter` is modelled by its observable interface: `spawn`
hands back a fresh host task id, `try_abort` records the aborted host id. -/

/-- `MistyAsyncTask` (async_task.rs lines 34-37). -/
structure MistyAsyncTask where
  id : Nat
  host_task_id : Nat
  deriving DecidableEq

/-- `MistyAsyncTaskPools` (async_task.rs lines 63-66) plus the modelled
runtime adapter state: `next_task_id` is the global `alloc_task_id` counter
(async_task.rs lines 39-43), `next_host_id` the adapter's id source, and
`aborted` the host ids passed to `try_abort` so far, in call order. -/
structure AsyncPools where
  pools : List (Nat × List MistyAsyncTask)
  next_task_id : Nat
  next_host_id : Nat
  aborted : List Nat
  deriving DecidableEq

/-- `MistyAsyncTaskPools::get` (async_task.rs lines 101-115): the pool of a
kind, freshly created when absent (`or_default`). -/
def AsyncPools.get (p : AsyncPools) (kind : Nat) : List MistyAsyncTask :=
  match alookup p.pools kind with
  | some l => l
  | none => []

/-- `MistyAsyncTaskPool::cancel_all` (async_task.rs lines 211-218):
`try_abort` every tracked task of the kind, then clear the pool. -/
def MistyAsyncTaskPool.cancel_all (p : AsyncPools) (kind : Nat) : AsyncPools :=
  { p with
      aborted := p.aborted ++ (p.get kind).map (fun t => t.host_task_id),
      pools := aset p.pools kind [] }

/-- `MistyAsyncTaskPool::spawn` (async_task.rs lines 135-171): allocate a
task id, hand the body to the runtime adapter (which yields a host task id),
and register the entry under the kind.  The body itself runs later on the
external runtime; its completion-time cleanup is not part of this
sequential-call model. -/
def MistyAsyncTaskPool.spawn (p : AsyncPools) (kind : Nat) : AsyncPools :=
  let task_id := p.next_task_id
  let host_task_id := p.next_host_id
  { p with
      next_task_id := p.next_task_id + 1,
      next_host_id := p.next_host_id + 1,
      pools := aset p.pools kind (p.get kind ++ [⟨task_id, host_task_id⟩]) }

/-- `MistyAsyncTaskTrait::spawn_once` (async_task.rs lines 271-282): cancel
and clear every tracked entry of the kind, then spawn. -/
def MistyAsyncTaskTrait.spawn_once (p : AsyncPools) (kind : Nat) : AsyncPools :=
  MistyAsyncTaskPool.spawn (MistyAsyncTaskPool.cancel_all p kind) kind

/-! ### Concrete scenarios used by the claim theorems and witnesses -/

/-- A registered state type with tag 0. -/
def fooState : StateTy := ⟨0, "FooState"⟩

/-- An idle client with `fooState` registered at its default value, an empty
resource ledger, no view bindings, and span depth 0. -/
def baseClient : Client Int :=
  { state_manager := ⟨[(0, 0)], 0, []⟩,
    resource_manager := MistyResourceManager.new,
    view_models := [],
    destroyed := false }

/-- Controller that sets `fooState` to 5, inserts the resource `[7]`, then
returns the error `"boom"`. -/
def progC1 : CtrlProg String :=
  ⟨[.updateState fooState (fun _ => 5), .insertRes [7]], .retErr "boom"⟩

/-- The erring invocation of claim C1. -/
def outC1 : Client Int × CallResult Int String :=
  call_controller "ThreadId(1)" progC1 baseClient

/-- The client state at the moment `progC1`'s body returns its error: the
resource `[7]` is pending, `fooState` is 5 and touched. -/
def midC1 : Client Int :=
  (runSteps "ThreadId(1)"
    { baseClient with state_manager := baseClient.state_manager.enter_mut_span }
    progC1.steps).1

/-- Does a `call_controller` outcome hand the caller a diff
(a `ControllerRet`)? -/
def diffDelivered {R E : Type} : CallResult R E → Bool
  | .ret (.ok _) => true
  | _ => false

/-- Controller that sets `fooState` to 5 and then panics with `"bang"`. -/
def progC4 : CtrlProg String :=
  ⟨[.updateState fooState (fun _ => 5)], .panics "bang"⟩

/-- The body outcome of `progC4` from the idle client: state mutated, then
an abnormal unwind. -/
def bodyC4 : Client Int × BodyResult String :=
  callBody "ThreadId(1)" progC4
    { baseClient with state_manager := baseClient.state_manager.enter_mut_span }

/-- A client whose `destroyed` flag has been set (after
`MistyClientInner::destroy`), still sitting in the singleton pod. -/
def destroyedClient : Client Int :=
  { baseClient with destroyed := true }

/-- Controller that sets `fooState` to 5 and returns `Ok(())`. -/
def progC9 : CtrlProg String :=
  ⟨[.updateState fooState (fun _ => 5)], .retOk⟩

/-- Calling a controller through the singleton pod on the destroyed
client. -/
def outC9 : Except String (Client Int × CallResult Int String) :=
  SingletonMistyClientPod.call_controller (some destroyedClient)
    "UpdateFooController" "ThreadId(1)" progC9

/-- Did the pod call run the controller to completion on the destroyed
client — committing a diff and applying its mutation? -/
def c9ran : Bool :=
  match outC9 with
  | .ok (c, .ret (.ok _)) => alookup c.state_manager.vals 0 == some 5
  | _ => false

/-- A handler that increments the app counter and succeeds. -/
def okHandler : Int → Int × Except String Unit :=
  fun s => (s + 1, .ok ())

/-- A handler that multiplies the app counter by 10 and errs with `"e1"`. -/
def errHandler : Int → Int × Except String Unit :=
  fun s => (s * 10, .error "e1")

/-- A destroyed schedule client. -/
def schedDestroyed : ScheduleClient Int :=
  { destroyed := true, tasks := [], signals := 0, app := 0, log := [] }

/-- A live schedule client. -/
def schedAlive : ScheduleClient Int :=
  { destroyed := false, tasks := [], signals := 0, app := 0, log := [] }

/-- The C10 batch: an erring handler followed by a succeeding one. -/
def flushBatch : List (Int → Int × Except String Unit) :=
  [errHandler, okHandler]

/-- A client whose queue holds the wrapped C10 batch and whose app counter
starts at 1. -/
def flushClient : ScheduleClient Int :=
  { destroyed := false, tasks := flushBatch.map ScheduledTask.new,
    signals := 2, app := 1, log := [] }

/-! ## Theorems -/

theorem alookup_aset_self {α : Type} (m : List (Nat × α)) (k : Nat) (v : α) :
    alookup (aset m k v) k = some v := by
  induction m with
  | nil => simp [aset, alookup]
  | cons h t ih =>
      by_cases hk : h.1 = k
      · simp [aset, hk, alookup]
      · simp [aset, hk, alookup, ih]

theorem update_depth (th : String) (T : StateTy) (f : Int → Int × Int)
    (m : MistyStateManager) :
    (MistyStateTrait.update th T f m).1.depth = m.depth := by
  unfold MistyStateTrait.update
  by_cases h : m.can_update
  · simp only [h, not_true_eq_false, if_false]
    cases alookup (m.add_update_state T).vals T.sid <;>
      simp [MistyStateManager.add_update_state]
  · simp [h]

theorem runStep_depth {R : Type} (th : String) (c : Client R) (s : CtrlStep) :
    (runStep th c s).1.state_manager.depth = c.state_manager.depth := by
  cases s with
  | updateState T f =>
      simp only [runStep]
      cases hr : (MistyStateTrait.update th T (fun v => (f v, v)) c.state_manager).2 <;>
        simp [← update_depth th T (fun v => (f v, v)) c.state_manager, hr]
  | insertRes buf => simp [runStep]

theorem runSteps_depth {R : Type} (th : String) (c : Client R) (ss : List CtrlStep) :
    (runSteps th c ss).1.state_manager.depth = c.state_manager.depth := by
  induction ss generalizing c with
  | nil => simp [runSteps]
  | cons s rest ih =>
      simp only [runSteps]
      cases hr : (runStep th c s).2 with
      | none => simp only []; rw [ih]; exact runStep_depth th c s
      | some m => simpa using runStep_depth th c s

theorem callBody_of_nopanic {R E : Type} (th : String) (ss : List CtrlStep)
    (ed : Ending E) (c : Client R) (hnp : (runSteps th c ss).2 = none) :
    callBody th ⟨ss, ed⟩ c =
      ((runSteps th c ss).1,
        match ed with
        | .retOk => BodyResult.normal (.ok ())
        | .retErr e => BodyResult.normal (.error e)
        | .panics m => BodyResult.panicked m) := by
  unfold callBody
  simp only [hnp]
  cases ed <;> rfl

/-- On a body returning `Err(e)` at depth 1, `call_controller` commits — it
harvests the pending resource actions, rebuilds the view, clears the touched
set — and then returns only the error, dropping the computed diff. -/
theorem call_controller_commit_err {R E : Type} [Inhabited R] (th : String)
    (p : CtrlProg E) (c : Client R) (c2 : Client R) (e : E)
    (h : callBody th p { c with state_manager := c.state_manager.enter_mut_span }
          = (c2, .normal (.error e)))
    (hdep : c2.state_manager.depth = 1) :
    call_controller th p c =
      ({ c2 with
           resource_manager :=
             (MistyResourceManager.take_all_actions c2.resource_manager).2,
           state_manager := { c2.state_manager with depth := 0, touched := [] } },
       CallResult.ret (.error e)) := by
  unfold call_controller
  simp only [h, MistyStateManager.leave_mut_span, hdep,
    MistyStateManager.clear_updated_states]
  rfl

/-- On a body returning `Ok(())` at depth 1, `call_controller` commits and
returns the diff: the rebuilt view and the harvested resource actions. -/
theorem call_controller_commit_ok {R E : Type} [Inhabited R] (th : String)
    (p : CtrlProg E) (c : Client R) (c2 : Client R)
    (h : callBody th p { c with state_manager := c.state_manager.enter_mut_span }
          = (c2, .normal (.ok ())))
    (hdep : c2.state_manager.depth = 1) :
    call_controller th p c =
      ({ c2 with
           resource_manager :=
             (MistyResourceManager.take_all_actions c2.resource_manager).2,
           state_manager := { c2.state_manager with depth := 0, touched := [] } },
       CallResult.ret (.ok
         ⟨some (MistyViewModelManager.build_view c2.view_models
                  { c2.state_manager with depth := 0 }),
          (MistyResourceManager.take_all_actions c2.resource_manager).1⟩)) := by
  unfold call_controller
  simp only [h, MistyStateManager.leave_mut_span, hdep,
    MistyStateManager.clear_updated_states]
  rfl

/-- Claim C1 (amended): a normal error from an outermost controller
invocation does not prevent the step-5 commit — the final client state (the
harvested ledger, the cleared touched set) is exactly the state the same
body would leave on success — and the error is propagated; but the computed
diff is dropped: the caller receives only `Err(e)`, while the successful run
would have received the diff. -/
theorem C1_commit_on_error_diff_dropped {R E : Type} [Inhabited R] (th : String)
    (ss : List CtrlStep) (e : E) (c : Client R)
    (hd : c.state_manager.depth = 0)
    (hnp : (runSteps th
        { c with state_manager := c.state_manager.enter_mut_span } ss).2 = none) :
    (call_controller th ⟨ss, .retErr e⟩ c).2 = CallResult.ret (Except.error e)
    ∧ (call_controller th ⟨ss, .retErr e⟩ c).1
        = (call_controller th (⟨ss, .retOk⟩ : CtrlProg E) c).1
    ∧ ∃ r, (call_controller th (⟨ss, .retOk⟩ : CtrlProg E) c).2
        = CallResult.ret (Except.ok r)
        ∧ r.changed_view.isSome = true := by
  have hdep : ((runSteps th
      { c with state_manager := c.state_manager.enter_mut_span } ss).1).state_manager.depth
      = 1 := by
    rw [runSteps_depth]
    simp [MistyStateManager.enter_mut_span, hd]
  have hbe : callBody th ⟨ss, .retErr e⟩
      { c with state_manager := c.state_manager.enter_mut_span }
      = ((runSteps th
          { c with state_manager := c.state_manager.enter_mut_span } ss).1,
         .normal (.error e)) :=
    callBody_of_nopanic th ss (.retErr e)
      { c with state_manager := c.state_manager.enter_mut_span } hnp
  have hbo : callBody th (⟨ss, .retOk⟩ : CtrlProg E)
      { c with state_manager := c.state_manager.enter_mut_span }
      = ((runSteps th
          { c with state_manager := c.state_manager.enter_mut_span } ss).1,
         .normal (.ok ())) :=
    callBody_of_nopanic th ss .retOk
      { c with state_manager := c.state_manager.enter_mut_span } hnp
  have he := call_controller_commit_err th ⟨ss, .retErr e⟩ c _ e hbe hdep
  have ho := call_controller_commit_ok th (⟨ss, .retOk⟩ : CtrlProg E) c _ hbo hdep
  rw [he, ho]
  exact ⟨rfl, rfl, _, rfl, rfl⟩

/-- Claim C1 (counterexample to the claim as stated): the controller
`progC1` mutates `fooState`, inserts resource `[7]` and returns
`Err("boom")`.  The error is propagated and the commit has run (the pending
table was consumed — it held the `Insert` for id 1 — and the touched set was
cleared), but the caller receives no diff: the result is the bare error. -/
theorem C1_caller_receives_no_diff :
    outC1.2 = CallResult.ret (Except.error "boom")
    ∧ diffDelivered outC1.2 = false
    ∧ (MistyResourceManager.take_all_actions midC1.resource_manager).1
        = [ResourceUpdateAction.Insert 1 [7]]
    ∧ outC1.1.resource_manager.pending_actions = []
    ∧ outC1.1.state_manager.touched = [] :=
  ⟨rfl, rfl, rfl, rfl, rfl⟩

/-- Witness for C1: the amended theorem applied to `progC1` from the idle
client. -/
theorem C1_witness :
    baseClient.state_manager.depth = 0
    ∧ (runSteps "ThreadId(1)"
        { baseClient with
            state_manager := baseClient.state_manager.enter_mut_span }
        progC1.steps).2 = none
    ∧ (call_controller "ThreadId(1)" progC1 baseClient).2
        = CallResult.ret (Except.error "boom") :=
  ⟨rfl, rfl,
    (C1_commit_on_error_diff_dropped "ThreadId(1)" progC1.steps "boom" baseClient
      rfl rfl).1⟩

/-- Claim C2 (code behavior at the failing input): insert `[1,2,3]` into a
fresh ledger (id 1), drop the only caller-held handle with no intervening
harvest.  The pending `Insert` stores a strong handle, so
`MistyResourceHandleInner::drop` does not run and nothing cancels: the next
harvest yields the `Insert` action for id 1 — not zero actions — and the
harvest after that yields a `Remove` for id 1. -/
theorem C2_drop_does_not_cancel_pending_insert :
    resHarvest1.1 = [ResourceUpdateAction.Insert 1 [1, 2, 3]]
    ∧ resHarvest2.1 = [ResourceUpdateAction.Remove 1] := by
  constructor <;> rfl

/-- Claim C3 (code behavior at the failing input): after `insert([1,2,3])`
(id 1) and dropping the only external handle, the ledger still holds a
strong reference inside the pending `Insert` action: no caller-held strong
reference exists (`ext_strong` is 0) yet `get_handle(1)` still upgrades to
`Some`.  Only after the pending `Insert` is harvested does `get_handle`
return `None`. -/
theorem C3_ledger_holds_strong_reference :
    alookup resAfterDrop.ext_strong 1 = some 0
    ∧ (MistyResourceManager.get_handle resAfterDrop 1).1 = some 1
    ∧ resAfterDrop.pendingHolds 1 = true
    ∧ (MistyResourceManager.get_handle resHarvest1.2 1).1 = none := by
  refine ⟨rfl, rfl, rfl, rfl⟩

/-- Claim C4: when the controller body unwinds abnormally, the armed cleanup
guard calls `MistyStateManager::reset` — the span depth becomes 0 and the
touched set empty — and nothing else changes: the state values, the resource
ledger, the view bindings and the destroyed flag are exactly those at the
unwind point (no rollback), and the panic propagates. -/
theorem C4_panic_guard_resets_bookkeeping_only {R E : Type} [Inhabited R]
    (th : String) (p : CtrlProg E) (c : Client R) (c2 : Client R) (m : String)
    (h : callBody th p { c with state_manager := c.state_manager.enter_mut_span }
          = (c2, .panicked m)) :
    call_controller th p c
      = ({ c2 with state_manager := c2.state_manager.reset }, .panicked m)
    ∧ (call_controller th p c).1.state_manager.depth = 0
    ∧ (call_controller th p c).1.state_manager.touched = []
    ∧ (call_controller th p c).1.state_manager.vals = c2.state_manager.vals
    ∧ (call_controller th p c).1.resource_manager = c2.resource_manager
    ∧ (call_controller th p c).1.view_models = c2.view_models
    ∧ (call_controller th p c).1.destroyed = c2.destroyed := by
  have h1 : call_controller th p c
      = ({ c2 with state_manager := c2.state_manager.reset }, .panicked m) := by
    unfold call_controller
    rw [h]
  refine ⟨h1, ?_, ?_, ?_, ?_, ?_, ?_⟩ <;> rw [h1] <;> rfl

/-- Witness for C4: the controller `progC4` mutates `fooState` to 5 and then
panics; afterwards depth is 0, the touched set is empty, and the mutated
value 5 is still in place. -/
theorem C4_witness :
    callBody "ThreadId(1)" progC4
        { baseClient with state_manager := baseClient.state_manager.enter_mut_span }
      = (bodyC4.1, .panicked "bang")
    ∧ (call_controller "ThreadId(1)" progC4 baseClient).1.state_manager.depth = 0
    ∧ (call_controller "ThreadId(1)" progC4 baseClient).1.state_manager.touched = []
    ∧ (call_controller "ThreadId(1)" progC4 baseClient).1.state_manager.vals
        = bodyC4.1.state_manager.vals := by
  have h : callBody "ThreadId(1)" progC4
      { baseClient with state_manager := baseClient.state_manager.enter_mut_span }
      = (bodyC4.1, .panicked "bang") := rfl
  have hc := C4_panic_guard_resets_bookkeeping_only "ThreadId(1)" progC4 baseClient
    bodyC4.1 "bang" h
  exact ⟨h, hc.2.1, hc.2.2.1, hc.2.2.2.1⟩

theorem memNat_append_self (k : Nat) (l : List Nat) :
    memNat k (l ++ [k]) = true := by
  induction l with
  | nil => simp [memNat]
  | cons x t ih =>
      by_cases hx : x = k <;> simp [memNat, hx, ih]

theorem memNat_insertSet (k : Nat) (l : List Nat) :
    memNat k (insertSet k l) = true := by
  unfold insertSet
  by_cases hm : memNat k l = true
  · simp [hm]
  · simp only [hm, if_false, Bool.not_eq_true] at *
    simp [hm, memNat_append_self]

/-- Claim C5: `MistyStateTrait::update` at span depth 0 fails fatally with
the panic message naming the calling thread and the state type; at positive
depth (on a registered state) the fatal branch is not taken, the state tag
enters the touched set, the new value is stored, and the function result is
returned. -/
theorem C5_update_span_gate (th : String) (T : StateTy) (f : Int → Int × Int)
    (m : MistyStateManager) :
    (m.depth = 0 →
      MistyStateTrait.update th T f m
        = (m, .error ("[" ++ th ++ "] cannot update state " ++ T.name
            ++ " in this stage")))
    ∧ (∀ v : Int, 0 < m.depth → alookup m.vals T.sid = some v →
        MistyStateTrait.update th T f m
          = ({ m with
                 touched := insertSet T.sid m.touched,
                 vals := aset m.vals T.sid (f v).1 }, .ok (f v).2)
        ∧ memNat T.sid (MistyStateTrait.update th T f m).1.touched = true) := by
  constructor
  · intro hd
    simp [MistyStateTrait.update, MistyStateManager.can_update, hd]
  · intro v hd hv
    have hcan : m.can_update = true := by
      simp [MistyStateManager.can_update, hd]
    have hv' : alookup (m.add_update_state T).vals T.sid = some v := hv
    have heq : MistyStateTrait.update th T f m
        = ({ m with
               touched := insertSet T.sid m.touched,
               vals := aset m.vals T.sid (f v).1 }, .ok (f v).2) := by
      unfold MistyStateTrait.update
      simp only [hcan, not_true_eq_false, if_false, hv']
      rfl
    refine ⟨heq, ?_⟩
    rw [heq]
    exact memNat_insertSet T.sid m.touched

/-- Witness for C5: at depth 0 the update on `FooState` panics with the
expected message; at depth 1 it stores the new value 4, touches tag 0 and
returns the function result 6. -/
theorem C5_witness :
    (MistyStateTrait.update "ThreadId(1)" fooState (fun v => (v + 1, v * 2))
        ⟨[(0, 3)], 0, []⟩
      = (⟨[(0, 3)], 0, []⟩,
         .error ("[" ++ "ThreadId(1)" ++ "] cannot update state "
           ++ fooState.name ++ " in this stage")))
    ∧ (MistyStateTrait.update "ThreadId(1)" fooState (fun v => (v + 1, v * 2))
        ⟨[(0, 3)], 1, []⟩
      = (⟨[(0, 4)], 1, [0]⟩, .ok 6))
    ∧ memNat 0 (MistyStateTrait.update "ThreadId(1)" fooState
        (fun v => (v + 1, v * 2)) ⟨[(0, 3)], 1, []⟩).1.touched = true := by
  have h0 := (C5_update_span_gate "ThreadId(1)" fooState (fun v => (v + 1, v * 2))
    ⟨[(0, 3)], 0, []⟩).1 rfl
  have h1 := (C5_update_span_gate "ThreadId(1)" fooState (fun v => (v + 1, v * 2))
    ⟨[(0, 3)], 1, []⟩).2 3 (by decide) rfl
  exact ⟨h0, h1.1, h1.2⟩

/-- Claim C6: `spawn_once` is exactly cancel-then-spawn — it aborts and
clears every entry tracked for the kind first — so two successive
`spawn_once` calls on kind `k` leave exactly one tracked task (the second
one), the first call's task having been passed to `try_abort`. -/
theorem C6_spawn_once_single_task (p : AsyncPools) (k : Nat) :
    MistyAsyncTaskTrait.spawn_once p k
      = MistyAsyncTaskPool.spawn (MistyAsyncTaskPool.cancel_all p k) k
    ∧ (MistyAsyncTaskPool.cancel_all p k).get k = []
    ∧ (MistyAsyncTaskPool.cancel_all p k).aborted
        = p.aborted ++ (p.get k).map (fun t => t.host_task_id)
    ∧ (MistyAsyncTaskTrait.spawn_once p k).get k
        = [⟨p.next_task_id, p.next_host_id⟩]
    ∧ (MistyAsyncTaskTrait.spawn_once (MistyAsyncTaskTrait.spawn_once p k) k).get k
        = [⟨p.next_task_id + 1, p.next_host_id + 1⟩]
    ∧ ((MistyAsyncTaskTrait.spawn_once (MistyAsyncTaskTrait.spawn_once p k) k).get k).length
        = 1
    ∧ (MistyAsyncTaskTrait.spawn_once (MistyAsyncTaskTrait.spawn_once p k) k).aborted
        = p.aborted ++ (p.get k).map (fun t => t.host_task_id) ++ [p.next_host_id] := by
  refine ⟨rfl, ?_, rfl, ?_, ?_, ?_, ?_⟩ <;>
    simp [MistyAsyncTaskTrait.spawn_once, MistyAsyncTaskPool.spawn,
      MistyAsyncTaskPool.cancel_all, AsyncPools.get, alookup_aset_self]

theorem contains_updated_state_nil (m : MistyStateManager) (ids : List Nat)
    (ht : m.touched = []) : m.contains_updated_state ids = false := by
  simp only [MistyStateManager.contains_updated_state, ht]
  induction ids with
  | nil => rfl
  | cons i t ih => simp [memNat, ih]

theorem build_view_foldl_filter {R : Type} (m : MistyStateManager)
    (models : List (ViewBinding R)) (init : R) :
    models.foldl
      (fun s md =>
        if m.contains_updated_state md.deps then
          md.update (md.deps.map (fun i => alookup m.vals i)) s
        else s) init
    = (models.filter (fun b => m.contains_updated_state b.deps)).foldl
        (fun s b => b.update (b.deps.map (fun i => alookup m.vals i)) s) init := by
  induction models generalizing init with
  | nil => rfl
  | cons b t ih =>
      by_cases hb : m.contains_updated_state b.deps = true
      · simp [List.filter_cons, hb, ih]
      · simp only [Bool.not_eq_true] at hb
        simp [List.filter_cons, hb, ih]

/-- Claim C7: `build_view` starts from the default output and, in
registration order, invokes a binding exactly when the touched set meets its
declared dependency tags (the run equals the fold over the gated
sublist); with an empty touched set the result is the default output; and a
binding over tag `A` is not invoked when only tag `B` was touched. -/
theorem C7_build_view_gated (R : Type) [Inhabited R] :
    (∀ (models : List (ViewBinding R)) (m : MistyStateManager),
      MistyViewModelManager.build_view models m
        = (models.filter (fun b => m.contains_updated_state b.deps)).foldl
            (fun s b => b.update (b.deps.map (fun i => alookup m.vals i)) s)
            default)
    ∧ (∀ (models : List (ViewBinding R)) (m : MistyStateManager),
        m.touched = [] →
        MistyViewModelManager.build_view models m = (default : R))
    ∧ (∀ (A B : Nat) (fA fB : List (Option Int) → R → R) (m : MistyStateManager),
        m.touched = [B] → A ≠ B →
        MistyViewModelManager.build_view [⟨[A], fA⟩, ⟨[B], fB⟩] m
          = fB [alookup m.vals B] default) := by
  refine ⟨?_, ?_, ?_⟩
  · intro models m
    exact build_view_foldl_filter m models default
  · intro models m ht
    unfold MistyViewModelManager.build_view
    induction models with
    | nil => rfl
    | cons b t ih => simp [contains_updated_state_nil m b.deps ht, ih]
  · intro A B fA fB m ht hAB
    have hBA : (B = A) = False := by
      simp [Ne.symm hAB]
    simp [MistyViewModelManager.build_view, MistyStateManager.contains_updated_state,
      ht, memNat, hBA]

/-- Witness for C7: with tag 1 touched and two `Int` bindings — one over tag
0, one over tag 1 — only the second fires, and an empty touched set gives
the default view 0. -/
theorem C7_witness :
    MistyViewModelManager.build_view
        [⟨[0], fun _ r => r + 1⟩, ⟨[1], fun _ r => r + 10⟩]
        ⟨[(0, 0), (1, 0)], 0, [1]⟩
      = (fun (_ : List (Option Int)) (r : Int) => r + 10)
          [alookup (⟨[(0, 0), (1, 0)], 0, [1]⟩ : MistyStateManager).vals 1] default
    ∧ MistyViewModelManager.build_view
        [⟨[0], fun (_ : List (Option Int)) (r : Int) => r + 1⟩]
        ⟨[(0, 0)], 0, []⟩ = (default : Int) := by
  refine ⟨(C7_build_view_gated Int).2.2 0 1 (fun _ r => r + 1) (fun _ r => r + 10)
      ⟨[(0, 0), (1, 0)], 0, [1]⟩ rfl (by decide), ?_⟩
  exact (C7_build_view_gated Int).2.1 [⟨[0], fun _ r => r + 1⟩] ⟨[(0, 0)], 0, []⟩ rfl

/-- Claim C8: `MistyAsyncTaskContext::schedule` is a silent no-op when the
weak client reference no longer upgrades or when the client is destroyed —
nothing is enqueued, no signal is emitted, no error is raised — and on a
live client it enqueues the wrapped handler and emits one `Schedule`
signal. -/
theorem C8_schedule_destroyed_noop (σ : Type) (c : ScheduleClient σ)
    (h : σ → σ × Except String Unit) :
    MistyAsyncTaskContext.schedule (none : Option (ScheduleClient σ)) h = none
    ∧ (c.destroyed = true → MistyAsyncTaskContext.schedule (some c) h = some c)
    ∧ (c.destroyed = false →
        MistyAsyncTaskContext.schedule (some c) h
          = some { c with
                     tasks := c.tasks ++ [ScheduledTask.new h],
                     signals := c.signals + 1 }) := by
  refine ⟨rfl, ?_, ?_⟩
  · intro hd
    simp [MistyAsyncTaskContext.schedule, hd]
  · intro hd
    simp [MistyAsyncTaskContext.schedule, hd, ScheduleManager.enqueue]

/-- Witness for C8: scheduling on the destroyed client changes nothing;
scheduling on the live client appends the wrapped handler and bumps the
signal count. -/
theorem C8_witness :
    schedDestroyed.destroyed = true
    ∧ MistyAsyncTaskContext.schedule (some schedDestroyed) okHandler
        = some schedDestroyed
    ∧ schedAlive.destroyed = false
    ∧ MistyAsyncTaskContext.schedule (some schedAlive) okHandler
        = some { schedAlive with
                   tasks := schedAlive.tasks ++ [ScheduledTask.new okHandler],
                   signals := schedAlive.signals + 1 } :=
  ⟨rfl,
   (C8_schedule_destroyed_noop Int schedDestroyed okHandler).2.1 rfl,
   rfl,
   (C8_schedule_destroyed_noop Int schedAlive okHandler).2.2 rfl⟩

/-- Claim C9 (counterexample to the claim as stated): with a client whose
destroyed flag is set still sitting in the singleton pod, the pod's
`call_controller` does not terminate the operation — the controller runs to
completion, its mutation is applied (`fooState` becomes 5) and a diff is
committed. -/
theorem C9_destroyed_client_still_runs :
    destroyedClient.destroyed = true ∧ c9ran = true :=
  ⟨rfl, rfl⟩

/-- Claim C9 (amended): `SingletonMistyClientPod::call_controller` is fatal
— a panic naming the controller — exactly when no client is in the pod; the
destroyed flag is not consulted on this path, so on a destroyed client the
controller runs normally via `call_controller`. -/
theorem C9_pod_dispatch {R E : Type} [Inhabited R] (ctrlName th : String)
    (p : CtrlProg E) :
    SingletonMistyClientPod.call_controller (none : Option (Client R)) ctrlName th p
      = .error ("client not in singleton pod. controller is " ++ ctrlName)
    ∧ ∀ c : Client R, c.destroyed = true →
        SingletonMistyClientPod.call_controller (some c) ctrlName th p
          = .ok (call_controller th p c) :=
  ⟨rfl, fun _ _ => rfl⟩

/-- Witness for C9 (amended): the empty pod panics; the destroyed client in
the pod yields the ordinary `call_controller` run. -/
theorem C9_witness :
    SingletonMistyClientPod.call_controller (none : Option (Client Int))
        "UpdateFooController" "ThreadId(1)" progC9
      = .error ("client not in singleton pod. controller is "
          ++ "UpdateFooController")
    ∧ destroyedClient.destroyed = true
    ∧ outC9 = .ok (call_controller "ThreadId(1)" progC9 destroyedClient) :=
  ⟨(C9_pod_dispatch "UpdateFooController" "ThreadId(1)" progC9).1,
   rfl,
   (C9_pod_dispatch "UpdateFooController" "ThreadId(1)" progC9).2
     destroyedClient rfl⟩

theorem wrapped_foldl (σ : Type) (hs : List (σ → σ × Except String Unit))
    (s : σ) (l : List String) :
    (hs.map ScheduledTask.new).foldl (fun sl t => t sl) (s, l)
      = (runAllHandlers hs s, l ++ flushErrors hs s) := by
  induction hs generalizing s l with
  | nil => simp [runAllHandlers, flushErrors]
  | cons h t ih =>
      simp only [List.map_cons, List.foldl_cons, runAllHandlers, flushErrors]
      cases hr : (h s).2 with
      | ok u =>
          simp [ScheduledTask.new, hr, ih]
      | error e =>
          simp [ScheduledTask.new, hr, ih]

/-- Claim C10: the flush controller drains the whole batch even when a
continuation errs — the app state ends up as the sequential effect of every
handler in enqueue order, each error only appends its log line — and the
controller itself returns `Ok(())` (its error type is the uninhabited
`Empty`). -/
theorem C10_flush_runs_whole_batch (σ : Type)
    (hs : List (σ → σ × Except String Unit)) (c : ScheduleClient σ)
    (hq : c.tasks = hs.map ScheduledTask.new) :
    controller_flush_scheduled_tasks c
      = ({ c with
             tasks := [],
             app := runAllHandlers hs c.app,
             log := c.log ++ flushErrors hs c.app }, .ok ()) := by
  unfold controller_flush_scheduled_tasks ScheduleManager.take_all_tasks
  simp only [hq, wrapped_foldl]

/-- Witness for C10: the batch `[errHandler, okHandler]` on app state 1
runs to completion — the erring first handler does not stop the second —
leaving app state `1 * 10 + 1 = 11`, one log line, and `Ok(())`. -/
theorem C10_witness :
    flushClient.tasks = flushBatch.map ScheduledTask.new
    ∧ controller_flush_scheduled_tasks flushClient
        = ({ flushClient with
               tasks := [],
               app := runAllHandlers flushBatch flushClient.app,
               log := flushClient.log ++ flushErrors flushBatch flushClient.app },
           .ok ())
    ∧ runAllHandlers flushBatch flushClient.app = 11
    ∧ flushErrors flushBatch flushClient.app = ["schedule fail, error: e1"] :=
  ⟨rfl, C10_flush_runs_whole_batch Int flushBatch flushClient rfl, rfl, rfl⟩

end MistyVM
